import Mathlib

/-!
Verification of the request-orchestration and response-normalisation layer of
the Quick MD Helper application (`app.py`).

The embedding is shallow: Python strings are modelled either as Lean `String`
or, for the line-oriented formatting code, as `List Char`; the remote model
(OpenAI chat completion) is an oracle parameter mapping a message list and a
token ceiling to either returned content (`Option String`, since the provider
may return no content) or a raised exception carrying a message.  Streamlit
rendering calls are modelled by explicit output values (`Rendered`, `Shown`);
the session history is a `List HistoryEntry`.
-/

set_option autoImplicit false

namespace RidgeDoctor

/-- Python truthiness-based `or` on an optional string: `content or default`
falls through to the default when the content is `None` or the empty string. -/
def pyOrStr (c : Option String) (d : String) : String :=
  match c with
  | none => d
  | some s => if s = "" then d else s

/-- ASCII whitespace characters stripped by the model of Python `str.strip()`. -/
def isPySpace (c : Char) : Bool :=
  c = ' ' || c = '\t' || c = '\n' || c = '\r' || c = '\x0b' || c = '\x0c'

/-- Model of Python `str.strip()` on a list of characters: drop whitespace
from both ends. -/
def pyStrip (l : List Char) : List Char :=
  ((l.dropWhile isPySpace).reverse.dropWhile isPySpace).reverse

/-- Model of Python `str.split('\n')` on a list of characters. -/
def splitNL : List Char → List (List Char)
  | [] => [[]]
  | c :: rest =>
    if c = '\n' then [] :: splitNL rest
    else
      match splitNL rest with
      | [] => [[c]]
      | l :: ls => (c :: l) :: ls

/-- Does `pat` occur at the start of the second list (model of
`str.startswith` for an explicit pattern)? -/
def leadMatch : List Char → List Char → Bool
  | [], _ => true
  | _ :: _, [] => false
  | p :: ps, q :: qs => p == q && leadMatch ps qs

/-- Model of the Python substring test `pat in s`. -/
def hasSub (pat : List Char) : List Char → Bool
  | [] => leadMatch pat []
  | c :: rest => leadMatch pat (c :: rest) || hasSub pat rest

/-- Token budget of the first completion call (`MAX_TOKENS` in `app.py`). -/
def MAX_TOKENS : Nat := 3500

/-- Token budget of the fallback completion call (`MAX_TOKENS_RETRY`). -/
def MAX_TOKENS_RETRY : Nat := 5000

/-- The fixed no-content sentinel produced when both completion calls come
back empty. -/
def SENTINEL : String := "[Still empty after retry]"

/-- The hardcoded guideline years scanned by `display_result`, in source
order (descending). -/
def YEARS : List String := ["2025", "2024", "2023", "2022"]

/-- The fixed task table (`TOPICS` in `app.py`): task name paired with its
instruction fragment. -/
def TOPICS : List (String × String) :=
  [("Treatment",
    "Summarise first-line therapy including dose, route, frequency, and duration."),
   ("Confirmatory test",
    "State single best confirmatory test with one-line rationale for selection."),
   ("Differential & next steps",
    "List top 5 differential diagnoses then specify best next management step.")]

/-- The system prompt template (`SYSTEM_PROMPT.format(task_instruction=...)`):
a fixed instruction block followed by the per-task instruction fragment. -/
def SYSTEM_PROMPT (task_instruction : String) : String :=
  "ROLE: Clinical decision-support assistant for licensed clinicians.\n\nOUTPUT STYLE\n• ≤5 bullet points, each ≤25 words.\n• Use standard medical abbreviations.\n• For meds: dose / route / frequency / duration.\n• Cite ≥2022 guideline source (e.g., \"IDSA 2024\").\n• Include 1 red-flag / contraindication bullet.\n• End with: \"Clinical judgment required – not a substitute for professional assessment.\"\n\nACCURACY RULE\nIf evidence weak or guideline absent, begin with \"Guideline match: NONE\".\n\nTASK: "
    ++ task_instruction

/-- The message pair built by `process_task` before any provider call:
system prompt plus the user case text. -/
def procMessages (task_instruction caseText : String) : List (String × String) :=
  [("system", SYSTEM_PROMPT task_instruction), ("user", caseText)]

/-- Outcome of one provider call: either content (possibly absent) or a
raised exception with its message. -/
inductive CallResult : Type where
  | ok (content : Option String)
  | exn (msg : String)
deriving DecidableEq

/-- An oracle standing for the remote completion endpoint: given the message
list and the token ceiling, produce the call outcome. -/
def Oracle : Type := List (String × String) → Nat → CallResult

/-- Shallow embedding of `process_task`: build the messages, make the first
call at `MAX_TOKENS`; when the resulting answer strips to empty, make exactly
one more call at `MAX_TOKENS_RETRY` with the identical messages, substituting
the sentinel when that second call is also contentless.  The returned log
lists the calls actually issued (messages and token ceiling); a raised
provider exception propagates as `Except.error`. -/
def process_task (task_instruction caseText : String) (oracle : Oracle) :
    Except String (String × List (List (String × String) × Nat)) :=
  let messages := procMessages task_instruction caseText
  match oracle messages MAX_TOKENS with
  | CallResult.exn m => Except.error m
  | CallResult.ok c0 =>
    let answer := pyOrStr c0 ""
    if pyStrip answer.data = [] then
      match oracle messages MAX_TOKENS_RETRY with
      | CallResult.exn m => Except.error m
      | CallResult.ok c1 =>
          Except.ok (pyOrStr c1 SENTINEL,
            [(messages, MAX_TOKENS), (messages, MAX_TOKENS_RETRY)])
    else
      Except.ok (answer, [(messages, MAX_TOKENS)])

/-- The guideline-year scan of `display_result`: first of the four hardcoded
years occurring as a substring, else "NONE". -/
def firstYear (answer : String) : String :=
  match YEARS.find? (fun y => hasSub y.data answer.data) with
  | some y => y
  | none => "NONE"

/-- The guideline tag computed by `display_result`: the year scan runs only
when the answer is truthy and is not the sentinel; otherwise the tag stays
"NONE". -/
def guidelineTag (answer : String) : String :=
  if answer ≠ "" ∧ answer ≠ SENTINEL then firstYear answer else "NONE"

/-- Bullet normalisation of one stripped line: prepend the bullet marker
unless the line already starts with it. -/
def bulletize (l : List Char) : List Char :=
  if l.take 1 = ['•'] then l else '•' :: ' ' :: l

/-- One iteration of the bullet-formatting loop of `display_result`: strip
the line; when non-blank, bulletize it and append it plus a blank line to the
accumulated text. -/
def foldStep (acc line : List Char) : List Char :=
  let l := pyStrip line
  if l = [] then acc else acc ++ bulletize l ++ ['\n', '\n']

/-- The bullet-formatting loop of `display_result` on a char list: strip the
whole text, split on newlines, run the loop body over the lines, and strip
the final text. -/
def formatAnswerL (answer : List Char) : List Char :=
  pyStrip ((splitNL (pyStrip answer)).foldl foldStep [])

/-- String-level wrapper of the bullet formatter. -/
def formatAnswer (answer : String) : String :=
  ⟨formatAnswerL answer.data⟩

/-- What the result area renders: a bulleted info block, or the explicit
no-response error state. -/
inductive Rendered : Type where
  | bullets (text : String)
  | noResponse
deriving DecidableEq

/-- Shallow embedding of `display_result`: the guideline badge value and the
rendered body.  An answer that is empty or equal to the sentinel is rendered
as the explicit no-response state. -/
def display_result (answer : String) : String × Rendered :=
  (guidelineTag answer,
   if answer ≠ "" ∧ answer ≠ SENTINEL then Rendered.bullets (formatAnswer answer)
   else Rendered.noResponse)

/-- One record of the session history (`st.session_state.history`). -/
structure HistoryEntry : Type where
  timestamp : String
  mode : String
  caseText : String
  results : List (String × String)
deriving DecidableEq

/-- Python `history.append(entry)`. -/
def appendEntry (history : List HistoryEntry) (e : HistoryEntry) : List HistoryEntry :=
  history ++ [e]

/-- The history display loop iterates `reversed(st.session_state.history)`. -/
def listEntries (history : List HistoryEntry) : List HistoryEntry :=
  history.reverse

/-- The clear-history button resets the log to the empty list. -/
def clearHistory : List HistoryEntry := []

/-- What one result panel shows to the user: a displayed result, or an error
box with its label text. -/
inductive Shown : Type where
  | result (answer : String) (d : String × Rendered)
  | errorBox (msg : String)
deriving DecidableEq

/-- Shallow embedding of the single-task run handler: on success the answer
is appended to the history and displayed; a raised provider failure is caught,
shown as a labeled error box, and nothing is appended to the history. -/
def run_single (task instr caseText ts : String) (oracle : Oracle)
    (history : List HistoryEntry) : List HistoryEntry × Shown :=
  match process_task instr caseText oracle with
  | Except.ok (answer, _) =>
      (appendEntry history ⟨ts, "Single Task: " ++ task, caseText, [(task, answer)]⟩,
       Shown.result answer (display_result answer))
  | Except.error e => (history, Shown.errorBox ("Error: " ++ e))

/-- Per-task outcome inside the all-tasks loop: the answer on success, the
labeled error string on a caught provider failure. -/
def taskOutcome (instr caseText : String) (oracle : Oracle) : String :=
  match process_task instr caseText oracle with
  | Except.ok (a, _) => a
  | Except.error e => "Error: " ++ e

/-- The accumulated `all_responses` mapping of the all-tasks handler, in
insertion order. -/
def run_all_responses (tasks : List (String × String)) (caseText : String)
    (oracle : String → Oracle) : List (String × String) :=
  tasks.map fun p => (p.1, taskOutcome p.2 caseText (oracle p.1))

/-- Shallow embedding of the all-tasks run handler: every task runs through
its own try/except boundary; each tab shows either the displayed result or a
labeled error box; when the response map is non-empty one history entry
holding the whole map is appended. -/
def run_all (tasks : List (String × String)) (caseText ts : String)
    (oracle : String → Oracle) (history : List HistoryEntry) :
    List HistoryEntry × List (String × String) × List (String × Shown) :=
  let responses := run_all_responses tasks caseText oracle
  let tabs := tasks.map fun p =>
    (p.1,
     match process_task p.2 caseText (oracle p.1) with
     | Except.ok (a, _) => Shown.result a (display_result a)
     | Except.error e => Shown.errorBox ("❌ Error: " ++ e))
  let history2 :=
    if responses = [] then history
    else appendEntry history ⟨ts, "All Tasks", caseText, responses⟩
  (history2, responses, tabs)

/-- Chunk produced by one line of the formatter, when any: the bulletized
stripped line for a non-blank line, nothing for a blank line. -/
def chunkOf (line : List Char) : Option (List Char) :=
  let l := pyStrip line
  if l = [] then none else some (bulletize l)

/-- Spec-side chunk list for the bullet formatter: the stripped non-blank
lines, each bulletized. -/
def bulletChunks (answer : List Char) : List (List Char) :=
  (splitNL (pyStrip answer)).filterMap chunkOf

/-- Join chunks with one blank line between consecutive chunks. -/
def joinSep : List (List Char) → List Char
  | [] => []
  | [c] => c
  | c :: c2 :: cs => c ++ '\n' :: '\n' :: joinSep (c2 :: cs)

/-- Spec-side description of the formatter (`§4.4` of the design): bulletize
every non-blank stripped line and join them with blank lines. -/
def bulletSpecFormat (answer : List Char) : List Char :=
  joinSep (bulletChunks answer)

/-- Oracle whose every call raises a provider failure with message "boom". -/
def claim1Oracle : Oracle := fun _ _ => CallResult.exn "boom"

/-- Oracle returning whitespace-only content on the first call and real
content on the fallback call. -/
def claim2Oracle : Oracle :=
  fun _ tok =>
    if tok = MAX_TOKENS_RETRY then CallResult.ok (some "resolved")
    else CallResult.ok (some " ")

/-- Oracle returning no content at the primary budget and content "OK" at the
fallback budget. -/
def claim5Oracle : Oracle :=
  fun _ tok =>
    if tok = MAX_TOKENS then CallResult.ok none else CallResult.ok (some "OK")

/-- Per-task oracle where only the "Treatment" task's provider fails. -/
def claim6Oracle : String → Oracle :=
  fun t =>
    if t = "Treatment" then fun _ _ => CallResult.exn "quota"
    else fun _ _ => CallResult.ok (some "fine")

/-- Per-task oracle agreeing with `claim6Oracle` away from "Treatment", where
it instead succeeds. -/
def claim6Oracle2 : String → Oracle :=
  fun t =>
    if t = "Treatment" then fun _ _ => CallResult.ok (some "healthy")
    else fun _ _ => CallResult.ok (some "fine")

/-! ### Helper lemmas about the string primitives -/

theorem dropWhile_head_false (p : Char → Bool) (l : List Char) {c : Char} {t : List Char}
    (h : l.dropWhile p = c :: t) : p c = false := by
  induction l with
  | nil => simp [List.dropWhile] at h
  | cons a r ih =>
    rw [List.dropWhile_cons] at h
    by_cases hp : p a = true
    · rw [if_pos hp] at h; exact ih h
    · rw [if_neg hp] at h
      injection h with h1 _
      subst h1
      exact Bool.not_eq_true _ ▸ hp

theorem dropWhile_decomp (p : Char → Bool) (l : List Char) :
    ∃ w, l = w ++ l.dropWhile p := by
  induction l with
  | nil => exact ⟨[], rfl⟩
  | cons a r ih =>
    by_cases hp : p a = true
    · obtain ⟨w, hw⟩ := ih
      refine ⟨a :: w, ?_⟩
      rw [List.dropWhile_cons, if_pos hp, List.cons_append, ← hw]
    · exact ⟨[], by rw [List.dropWhile_cons, if_neg hp]; rfl⟩

theorem mem_of_mem_dropWhile (p : Char → Bool) {a : Char} {l : List Char}
    (h : a ∈ l.dropWhile p) : a ∈ l := by
  obtain ⟨w, hw⟩ := dropWhile_decomp p l
  rw [hw]
  exact List.mem_append_right w h

theorem pyStrip_subset {a : Char} {l : List Char} (h : a ∈ pyStrip l) : a ∈ l := by
  unfold pyStrip at h
  rw [List.mem_reverse] at h
  have h2 := mem_of_mem_dropWhile isPySpace h
  rw [List.mem_reverse] at h2
  exact mem_of_mem_dropWhile isPySpace h2

theorem pyStrip_getLast (l : List Char) (h : pyStrip l ≠ []) :
    ∃ d, (pyStrip l).getLast? = some d ∧ isPySpace d = false := by
  unfold pyStrip at *
  rw [List.getLast?_reverse]
  cases hBe : (l.dropWhile isPySpace).reverse.dropWhile isPySpace with
  | nil => rw [hBe] at h; simp at h
  | cons c t => exact ⟨c, by simp, dropWhile_head_false _ _ hBe⟩

theorem pyStrip_head (l : List Char) (h : pyStrip l ≠ []) :
    ∃ d, (pyStrip l).head? = some d ∧ isPySpace d = false := by
  unfold pyStrip at *
  rw [List.head?_reverse]
  have hBne : (l.dropWhile isPySpace).reverse.dropWhile isPySpace ≠ [] := by
    intro he; rw [he] at h; simp at h
  obtain ⟨w, hw⟩ := dropWhile_decomp isPySpace ((l.dropWhile isPySpace).reverse)
  have h1 : ((l.dropWhile isPySpace).reverse.dropWhile isPySpace).getLast?
      = (l.dropWhile isPySpace).reverse.getLast? := by
    conv_rhs => rw [hw]
    exact (List.getLast?_append_of_ne_nil w hBne).symm
  rw [h1, List.getLast?_reverse]
  cases hA : l.dropWhile isPySpace with
  | nil => exact absurd (by rw [hA]; rfl) hBne
  | cons c t => exact ⟨c, by simp, dropWhile_head_false _ _ hA⟩

theorem bulletize_head (l : List Char) : (bulletize l).head? = some '•' := by
  unfold bulletize
  by_cases h : l.take 1 = ['•']
  · rw [if_pos h]
    cases l with
    | nil => simp at h
    | cons c t =>
      simp only [List.take] at h
      injection h with h1 _
      rw [h1]
      rfl
  · rw [if_neg h]
    rfl

theorem bulletize_ne_nil (l : List Char) : bulletize l ≠ [] := by
  intro he
  have h := bulletize_head l
  rw [he] at h
  simp at h

theorem bulletize_getLast (l : List Char) (hne : l ≠ []) {d : Char}
    (hd : l.getLast? = some d) : (bulletize l).getLast? = some d := by
  unfold bulletize
  by_cases h : l.take 1 = ['•']
  · rw [if_pos h]; exact hd
  · rw [if_neg h]
    show (['•', ' '] ++ l).getLast? = some d
    rw [List.getLast?_append_of_ne_nil _ hne]
    exact hd

theorem bulletize_no_nl (l : List Char) (h : '\n' ∉ l) : '\n' ∉ bulletize l := by
  unfold bulletize
  by_cases hb : l.take 1 = ['•']
  · rw [if_pos hb]; exact h
  · rw [if_neg hb]
    intro hm
    rcases List.mem_cons.mp hm with h1 | hm2
    · exact absurd h1 (by decide)
    rcases List.mem_cons.mp hm2 with h1 | h1
    · exact absurd h1 (by decide)
    · exact h h1

theorem splitNL_ne_nil : ∀ l : List Char, splitNL l ≠ []
  | [] => by simp [splitNL]
  | c :: rest => by
    unfold splitNL
    by_cases h : c = '\n'
    · simp [h]
    · rw [if_neg h]
      cases splitNL rest <;> simp

theorem splitNL_cons_nl (x : List Char) : splitNL ('\n' :: x) = [] :: splitNL x := by
  simp [splitNL]

theorem splitNL_append (xs r : List Char) (hxs : ∀ a ∈ xs, a ≠ '\n') :
    ∃ h t, splitNL r = h :: t ∧ splitNL (xs ++ r) = (xs ++ h) :: t := by
  induction xs with
  | nil =>
    cases he : splitNL r with
    | nil => exact absurd he (splitNL_ne_nil r)
    | cons h t => exact ⟨h, t, rfl, by simpa using he⟩
  | cons x xs ih =>
    have hx : x ≠ '\n' := hxs x (by simp)
    obtain ⟨h, t, hr, hxr⟩ := ih (fun a ha => hxs a (List.mem_cons_of_mem _ ha))
    refine ⟨h, t, hr, ?_⟩
    show splitNL (x :: (xs ++ r)) = ((x :: xs) ++ h) :: t
    unfold splitNL
    rw [if_neg hx, hxr]
    rfl

theorem splitNL_of_no_nl (c : List Char) (h : ∀ a ∈ c, a ≠ '\n') : splitNL c = [c] := by
  obtain ⟨hh, t, hr, hc⟩ := splitNL_append c [] h
  have he : splitNL ([] : List Char) = [[]] := rfl
  rw [he] at hr
  injection hr with h1 h2
  subst h1
  subst h2
  simpa using hc

theorem splitNL_no_nl : ∀ (x : List Char) (l : List Char), l ∈ splitNL x → '\n' ∉ l
  | [], l, hl => by
    simp [splitNL] at hl
    simp [hl]
  | c :: rest, l, hl => by
    unfold splitNL at hl
    by_cases h : c = '\n'
    · rw [if_pos h] at hl
      rcases List.mem_cons.mp hl with h1 | h1
      · simp [h1]
      · exact splitNL_no_nl rest l h1
    · rw [if_neg h] at hl
      cases he : splitNL rest with
      | nil => exact absurd he (splitNL_ne_nil rest)
      | cons hh tt =>
        rw [he] at hl
        rcases List.mem_cons.mp hl with h1 | h1
        · subst h1
          intro hm
          rcases List.mem_cons.mp hm with h2 | h2
          · exact h h2.symm
          · exact splitNL_no_nl rest hh (by rw [he]; exact List.mem_cons_self _ _) h2
        · exact splitNL_no_nl rest l (by rw [he]; exact List.mem_cons_of_mem _ h1)

theorem formatFold_eq (lines : List (List Char)) : ∀ acc : List Char,
    lines.foldl foldStep acc
      = acc ++ ((lines.filterMap chunkOf).map (· ++ ['\n', '\n'])).flatten := by
  induction lines with
  | nil => intro acc; simp
  | cons line rest ih =>
    intro acc
    by_cases h : pyStrip line = []
    · rw [List.foldl_cons, List.filterMap_cons]
      have h1 : foldStep acc line = acc := by simp [foldStep, h]
      have h2 : chunkOf line = none := by simp [chunkOf, h]
      rw [h1, h2, ih]
    · rw [List.foldl_cons, List.filterMap_cons]
      have h1 : foldStep acc line = acc ++ bulletize (pyStrip line) ++ ['\n', '\n'] := by
        simp [foldStep, h]
      have h2 : chunkOf line = some (bulletize (pyStrip line)) := by simp [chunkOf, h]
      rw [h1, h2, ih]
      simp [List.append_assoc]

theorem join_map_eq : ∀ cs : List (List Char),
    ((cs.map (· ++ ['\n', '\n'])).flatten)
      = joinSep cs ++ (if cs = [] then [] else ['\n', '\n'])
  | [] => by simp [joinSep]
  | [c] => by simp [joinSep]
  | c :: c2 :: cs => by
    have ih := join_map_eq (c2 :: cs)
    rw [List.map_cons, List.flatten_cons, ih,
      if_neg (show ¬(c2 :: cs = []) by simp),
      if_neg (show ¬(c :: c2 :: cs = []) by simp)]
    have hjs : joinSep (c :: c2 :: cs) = c ++ '\n' :: '\n' :: joinSep (c2 :: cs) := rfl
    rw [hjs]
    simp

theorem joinSep_head_bullet : ∀ cs : List (List Char),
    (∀ c ∈ cs, c.head? = some '•') →
    cs = [] ∨ (joinSep cs).head? = some '•'
  | [], _ => Or.inl rfl
  | [c], h => Or.inr (by rw [joinSep]; exact h c (by simp))
  | c :: c2 :: cs, h => by
    right
    have hc : c.head? = some '•' := h c (by simp)
    have hcne : c ≠ [] := by intro he; rw [he] at hc; simp at hc
    show (c ++ '\n' :: '\n' :: joinSep (c2 :: cs)).head? = some '•'
    rw [List.head?_append_of_ne_nil _ hcne]
    exact hc

theorem joinSep_last_nospace : ∀ cs : List (List Char),
    (∀ c ∈ cs, ∃ d, c.getLast? = some d ∧ isPySpace d = false) →
    cs = [] ∨ ∃ d, (joinSep cs).getLast? = some d ∧ isPySpace d = false
  | [], _ => Or.inl rfl
  | [c], h => by
    right
    obtain ⟨d, hd, hs⟩ := h c (by simp)
    exact ⟨d, by rw [joinSep]; exact hd, hs⟩
  | c :: c2 :: cs, h => by
    right
    rcases joinSep_last_nospace (c2 :: cs) (fun x hx => h x (List.mem_cons_of_mem _ hx))
      with h1 | ⟨d, hd, hs⟩
    · simp at h1
    · refine ⟨d, ?_, hs⟩
      have hj : joinSep (c2 :: cs) ≠ [] := by
        intro he; rw [he] at hd; simp at hd
      show (c ++ '\n' :: '\n' :: joinSep (c2 :: cs)).getLast? = some d
      rw [List.getLast?_append_of_ne_nil c
        (show ('\n' :: '\n' :: joinSep (c2 :: cs)) ≠ ([] : List (Char)) by simp)]
      show (['\n', '\n'] ++ joinSep (c2 :: cs)).getLast? = some d
      rw [List.getLast?_append_of_ne_nil _ hj]
      exact hd

theorem pyStrip_of_clean (s : List Char) {d : Char}
    (hh : s.head? = some '•') (hlast : s.getLast? = some d) (hd : isPySpace d = false) :
    pyStrip (s ++ ['\n', '\n']) = s := by
  unfold pyStrip
  cases s with
  | nil => simp at hh
  | cons a t =>
    have ha : a = '•' := by
      have := hh
      simp only [List.head?] at this
      injection this
    have h1 : List.dropWhile isPySpace ((a :: t) ++ ['\n', '\n']) = (a :: t) ++ ['\n', '\n'] := by
      rw [List.cons_append, List.dropWhile_cons, if_neg (by rw [ha]; decide)]
    rw [h1]
    have h2 : ((a :: t) ++ ['\n', '\n']).reverse = '\n' :: '\n' :: (a :: t).reverse := by
      rw [List.reverse_append]
      rfl
    rw [h2]
    have h3 : List.dropWhile isPySpace ('\n' :: '\n' :: (a :: t).reverse)
        = List.dropWhile isPySpace ((a :: t).reverse) := by
      rw [List.dropWhile_cons, if_pos (by decide), List.dropWhile_cons, if_pos (by decide)]
    rw [h3]
    have h4 : (a :: t).reverse.head? = some d := by
      rw [List.head?_reverse]
      exact hlast
    cases hrev : (a :: t).reverse with
    | nil => rw [hrev] at h4; simp at h4
    | cons b u =>
      rw [hrev] at h4
      have hb : b = d := by
        simp only [List.head?] at h4
        injection h4
      rw [List.dropWhile_cons, if_neg (by rw [hb, hd]; simp)]
      rw [← hrev, List.reverse_reverse]

theorem mem_bulletChunks {a c : List Char} (h : c ∈ bulletChunks a) :
    ∃ line, line ∈ splitNL (pyStrip a) ∧ pyStrip line ≠ [] ∧ c = bulletize (pyStrip line) := by
  unfold bulletChunks at h
  obtain ⟨line, hline, hc⟩ := List.mem_filterMap.mp h
  by_cases he : pyStrip line = []
  · simp [chunkOf, he] at hc
  · refine ⟨line, hline, he, ?_⟩
    simp [chunkOf, he] at hc
    exact hc.symm

theorem mem_bulletChunks_head {a c : List Char} (h : c ∈ bulletChunks a) :
    c.head? = some '•' := by
  obtain ⟨line, _, _, rfl⟩ := mem_bulletChunks h
  exact bulletize_head _

theorem mem_bulletChunks_last {a c : List Char} (h : c ∈ bulletChunks a) :
    ∃ d, c.getLast? = some d ∧ isPySpace d = false := by
  obtain ⟨line, _, hne, rfl⟩ := mem_bulletChunks h
  obtain ⟨d, hd, hs⟩ := pyStrip_getLast line hne
  exact ⟨d, bulletize_getLast _ hne hd, hs⟩

theorem mem_bulletChunks_no_nl {a c : List Char} (h : c ∈ bulletChunks a) :
    '\n' ∉ c := by
  obtain ⟨line, hline, _, rfl⟩ := mem_bulletChunks h
  apply bulletize_no_nl
  intro hm
  exact splitNL_no_nl _ _ hline (pyStrip_subset hm)

theorem formatAnswerL_eq (a : List Char) : formatAnswerL a = bulletSpecFormat a := by
  have hfold : formatAnswerL a
      = pyStrip (((bulletChunks a).map (· ++ ['\n', '\n'])).flatten) := by
    unfold formatAnswerL bulletChunks
    rw [formatFold_eq, List.nil_append]
  rw [hfold, join_map_eq]
  unfold bulletSpecFormat
  by_cases hcs : bulletChunks a = []
  · rw [if_pos hcs, hcs, List.append_nil]
    rfl
  · rw [if_neg hcs]
    rcases joinSep_head_bullet (bulletChunks a) (fun c hc => mem_bulletChunks_head hc)
      with h1 | hh
    · exact absurd h1 hcs
    rcases joinSep_last_nospace (bulletChunks a) (fun c hc => mem_bulletChunks_last hc)
      with h1 | ⟨d, hd, hs⟩
    · exact absurd h1 hcs
    exact pyStrip_of_clean _ hh hd hs

theorem joinSep_lines : ∀ cs : List (List Char),
    (∀ c ∈ cs, c.head? = some '•') → (∀ c ∈ cs, '\n' ∉ c) →
    ∀ l ∈ splitNL (joinSep cs), l = [] ∨ l.head? = some '•'
  | [], _, _ => by
    intro l hl
    rw [joinSep] at hl
    have : splitNL ([] : List Char) = [[]] := rfl
    rw [this] at hl
    left
    simpa using hl
  | [c], hh, hnl => by
    intro l hl
    rw [joinSep] at hl
    rw [splitNL_of_no_nl c (fun x hx he => hnl c (by simp) (he ▸ hx))] at hl
    have : l = c := by simpa using hl
    subst this
    exact Or.inr (hh l (by simp))
  | c :: c2 :: cs, hh, hnl => by
    intro l hl
    have hcs : ∀ x ∈ (c2 :: cs), x.head? = some '•' :=
      fun x hx => hh x (List.mem_cons_of_mem _ hx)
    have hcsn : ∀ x ∈ (c2 :: cs), '\n' ∉ x :=
      fun x hx => hnl x (List.mem_cons_of_mem _ hx)
    have hjs : joinSep (c :: c2 :: cs) = c ++ '\n' :: '\n' :: joinSep (c2 :: cs) := rfl
    rw [hjs] at hl
    obtain ⟨hd, tl, hr, hxr⟩ := splitNL_append c ('\n' :: '\n' :: joinSep (c2 :: cs))
      (fun x hx he => hnl c (by simp) (he ▸ hx))
    rw [splitNL_cons_nl, splitNL_cons_nl] at hr
    injection hr with hr1 hr2
    subst hr1
    subst hr2
    rw [hxr, List.append_nil] at hl
    rcases List.mem_cons.mp hl with h1 | h1
    · subst h1
      exact Or.inr (hh l (by simp))
    rcases List.mem_cons.mp h1 with h2 | h2
    · exact Or.inl h2
    · exact joinSep_lines (c2 :: cs) hcs hcsn l h2

/-! ### Unfolding lemmas for the handlers -/

theorem process_task_eq (instr caseText : String) (oracle : Oracle) :
    process_task instr caseText oracle =
      match oracle (procMessages instr caseText) MAX_TOKENS with
      | CallResult.exn m => Except.error m
      | CallResult.ok c0 =>
        if pyStrip (pyOrStr c0 "").data = [] then
          match oracle (procMessages instr caseText) MAX_TOKENS_RETRY with
          | CallResult.exn m => Except.error m
          | CallResult.ok c1 =>
              Except.ok (pyOrStr c1 SENTINEL,
                [(procMessages instr caseText, MAX_TOKENS),
                 (procMessages instr caseText, MAX_TOKENS_RETRY)])
        else Except.ok (pyOrStr c0 "", [(procMessages instr caseText, MAX_TOKENS)]) := rfl

theorem run_all_eq (tasks : List (String × String)) (caseText ts : String)
    (oracle : String → Oracle) (history : List HistoryEntry) :
    run_all tasks caseText ts oracle history
      = ((if run_all_responses tasks caseText oracle = [] then history
          else appendEntry history
            ⟨ts, "All Tasks", caseText, run_all_responses tasks caseText oracle⟩),
         run_all_responses tasks caseText oracle,
         tasks.map fun p =>
           (p.1,
            match process_task p.2 caseText (oracle p.1) with
            | Except.ok (a, _) => Shown.result a (display_result a)
            | Except.error e => Shown.errorBox ("❌ Error: " ++ e))) := rfl

theorem pyOrStr_of_empty {c : Option String} (h : pyOrStr c "" = "") (d : String) :
    pyOrStr c d = d := by
  cases c with
  | none => rfl
  | some s =>
    by_cases hs : s = ""
    · simp [pyOrStr, hs]
    · simp [pyOrStr, hs] at h

theorem pyOrStr_of_ne {s : String} (hs : s ≠ "") (d : String) :
    pyOrStr (some s) d = s := by
  simp [pyOrStr, hs]

/-! ### Claims -/

/-- Claim C2, counterexample: the first call returns the non-empty text " "
(whitespace only), yet the Retry Policy issues a second call: two calls are
logged and the final result is the second call text, not the first. -/
theorem claim2_counterexample :
    claim2Oracle (procMessages "i2" "c2") MAX_TOKENS = CallResult.ok (some " ") ∧
    ((" " : String) == "") = false ∧
    Except.map (fun r => (r.1, r.2.length)) (process_task "i2" "c2" claim2Oracle)
      = Except.ok ("resolved", 2) := by
  refine ⟨rfl, by decide, rfl⟩

/-- Claim C2, amended: when the first call returns text that is non-empty
after stripping whitespace, exactly one call (at the primary token budget) is
made, its text is the final result, and the outcome never consults the
provider again (it is the same under any oracle agreeing on the first
call). -/
theorem claim2_amended (instr caseText : String) (oracle : Oracle) (c0 : Option String)
    (h1 : oracle (procMessages instr caseText) MAX_TOKENS = CallResult.ok c0)
    (hne : pyStrip (pyOrStr c0 "").data ≠ []) :
    process_task instr caseText oracle
      = Except.ok (pyOrStr c0 "", [(procMessages instr caseText, MAX_TOKENS)]) ∧
    (∀ oracle2 : Oracle,
      oracle2 (procMessages instr caseText) MAX_TOKENS = CallResult.ok c0 →
      process_task instr caseText oracle2 = process_task instr caseText oracle) := by
  constructor
  · rw [process_task_eq, h1]
    dsimp only
    exact if_neg hne
  · intro oracle2 h2
    rw [process_task_eq, h2, process_task_eq, h1]
    dsimp only
    rw [if_neg hne, if_neg hne]

/-- Claim C2, witness: a concrete non-blank first response yields exactly the
one-call outcome. -/
theorem claim2_witness :
    process_task "i2" "c2" (fun _ _ => CallResult.ok (some "X"))
      = Except.ok ("X", [(procMessages "i2" "c2", MAX_TOKENS)]) :=
  (claim2_amended "i2" "c2" (fun _ _ => CallResult.ok (some "X")) (some "X") rfl
    (by decide)).1

/-- Claim C3: when both the primary and the fallback call return empty text,
`process_task` produces the fixed sentinel, which is distinct from the empty
string. -/
theorem claim3_sentinel_on_double_empty (instr caseText : String) (oracle : Oracle)
    (c0 c1 : Option String)
    (h1 : oracle (procMessages instr caseText) MAX_TOKENS = CallResult.ok c0)
    (he0 : pyOrStr c0 "" = "")
    (h2 : oracle (procMessages instr caseText) MAX_TOKENS_RETRY = CallResult.ok c1)
    (he1 : pyOrStr c1 "" = "") :
    process_task instr caseText oracle
      = Except.ok (SENTINEL,
          [(procMessages instr caseText, MAX_TOKENS),
           (procMessages instr caseText, MAX_TOKENS_RETRY)]) ∧
    (SENTINEL == "") = false := by
  refine ⟨?_, by decide⟩
  rw [process_task_eq, h1]
  dsimp only
  rw [he0, if_pos (show pyStrip ("" : String).data = [] from rfl), h2]
  dsimp only
  rw [pyOrStr_of_empty he1]

/-- Claim C3, witness: a provider returning no content twice yields the
sentinel. -/
theorem claim3_witness :
    process_task "i3" "c3" (fun _ _ => CallResult.ok none)
      = Except.ok (SENTINEL,
          [(procMessages "i3" "c3", MAX_TOKENS),
           (procMessages "i3" "c3", MAX_TOKENS_RETRY)]) ∧
    (SENTINEL == "") = false :=
  claim3_sentinel_on_double_empty "i3" "c3" (fun _ _ => CallResult.ok none)
    none none rfl rfl rfl rfl

/-- Claim C5: when the first call returns empty text and the fallback call
returns non-empty text, exactly two calls are made — the second at the
enlarged token ceiling with the identical messages — and the final result is
the second call text. -/
theorem claim5_retry_result (instr caseText s : String) (oracle : Oracle)
    (c0 : Option String)
    (h1 : oracle (procMessages instr caseText) MAX_TOKENS = CallResult.ok c0)
    (he0 : pyOrStr c0 "" = "")
    (h2 : oracle (procMessages instr caseText) MAX_TOKENS_RETRY
        = CallResult.ok (some s))
    (hs : s ≠ "") :
    process_task instr caseText oracle
      = Except.ok (s, [(procMessages instr caseText, MAX_TOKENS),
                       (procMessages instr caseText, MAX_TOKENS_RETRY)]) ∧
    MAX_TOKENS < MAX_TOKENS_RETRY := by
  refine ⟨?_, by decide⟩
  rw [process_task_eq, h1]
  dsimp only
  rw [he0, if_pos (show pyStrip ("" : String).data = [] from rfl), h2]
  dsimp only
  rw [pyOrStr_of_ne hs]

/-- Claim C5, witness: a concrete empty-then-successful oracle yields the
second call text with the two-call log. -/
theorem claim5_witness :
    process_task "i5" "c5" claim5Oracle
      = Except.ok ("OK", [(procMessages "i5" "c5", MAX_TOKENS),
                          (procMessages "i5" "c5", MAX_TOKENS_RETRY)]) ∧
    MAX_TOKENS < MAX_TOKENS_RETRY :=
  claim5_retry_result "i5" "c5" "OK" claim5Oracle none rfl rfl rfl (by decide)

/-- Claim C1, counterexample: in the single-task run a provider failure is
surfaced as the labeled error box, but the session history stays empty — the
error string is not recorded in the history, contrary to the claim. -/
theorem claim1_counterexample :
    (run_single "Treatment" "i1" "case1" "ts" claim1Oracle []).1 = [] ∧
    (run_single "Treatment" "i1" "case1" "ts" claim1Oracle []).2
      = Shown.errorBox ("Error: " ++ "boom") := by
  exact ⟨rfl, rfl⟩

/-- Claim C1, amended: a provider failure is caught at the per-task boundary
and surfaced as a labeled error string in both runs; the all-tasks run also
records the error string in the appended history entry, while the single-task
run records no history entry at all for the failed run. -/
theorem claim1_amended :
    (∀ (task instr caseText ts e : String) (oracle : Oracle)
        (history : List HistoryEntry),
      process_task instr caseText oracle = Except.error e →
      run_single task instr caseText ts oracle history
        = (history, Shown.errorBox ("Error: " ++ e))) ∧
    (∀ (tasks : List (String × String)) (caseText ts : String)
        (oracle : String → Oracle) (history : List HistoryEntry) (t instr m : String),
      (t, instr) ∈ tasks →
      process_task instr caseText (oracle t) = Except.error m →
      (t, Shown.errorBox ("❌ Error: " ++ m)) ∈ (run_all tasks caseText ts oracle history).2.2 ∧
      ∃ entry : HistoryEntry,
        (run_all tasks caseText ts oracle history).1 = appendEntry history entry ∧
        (t, "Error: " ++ m) ∈ entry.results) := by
  constructor
  · intro task instr caseText ts e oracle history hfail
    unfold run_single
    rw [hfail]
  · intro tasks caseText ts oracle history t instr m hmem hfail
    constructor
    · rw [run_all_eq]
      refine List.mem_map.mpr ⟨(t, instr), hmem, ?_⟩
      rw [hfail]
    · have hne : run_all_responses tasks caseText oracle ≠ [] := by
        unfold run_all_responses
        intro he
        rw [List.map_eq_nil_iff] at he
        rw [he] at hmem
        simp at hmem
      refine ⟨⟨ts, "All Tasks", caseText, run_all_responses tasks caseText oracle⟩, ?_, ?_⟩
      · rw [run_all_eq]
        exact if_neg hne
      · show (t, "Error: " ++ m) ∈ run_all_responses tasks caseText oracle
        refine List.mem_map.mpr ⟨(t, instr), hmem, ?_⟩
        show (t, taskOutcome instr caseText (oracle t)) = (t, "Error: " ++ m)
        unfold taskOutcome
        rw [hfail]

/-- Claim C1, witness: a concrete failing provider, in both the single run
and the all-tasks run over the three fixed tasks. -/
theorem claim1_witness :
    run_single "Treatment" "i1" "case1" "tsw" claim1Oracle []
      = ([], Shown.errorBox ("Error: " ++ "boom")) ∧
    ("Treatment", Shown.errorBox ("❌ Error: " ++ "boom"))
      ∈ (run_all TOPICS "case1" "tsw" (fun _ => claim1Oracle) []).2.2 :=
  ⟨claim1_amended.1 "Treatment" "i1" "case1" "tsw" "boom" claim1Oracle [] rfl,
   (claim1_amended.2 TOPICS "case1" "tsw" (fun _ => claim1Oracle) [] "Treatment"
      "Summarise first-line therapy including dose, route, frequency, and duration."
      "boom" (by decide) rfl).1⟩

theorem run_all_responses_local (tasks : List (String × String)) (caseText : String)
    (oracle oracle2 : String → Oracle) (t : String)
    (hagree : ∀ u, u ≠ t → oracle2 u = oracle u) (u : String) (hu : u ≠ t) :
    List.lookup u (run_all_responses tasks caseText oracle)
      = List.lookup u (run_all_responses tasks caseText oracle2) := by
  induction tasks with
  | nil => rfl
  | cons p rest ih =>
    show List.lookup u ((p.1, taskOutcome p.2 caseText (oracle p.1))
        :: run_all_responses rest caseText oracle)
      = List.lookup u ((p.1, taskOutcome p.2 caseText (oracle2 p.1))
        :: run_all_responses rest caseText oracle2)
    rw [List.lookup_cons, List.lookup_cons]
    cases hbe : u == p.1 with
    | true =>
      have heq : u = p.1 := by simpa using hbe
      have hpt : p.1 ≠ t := fun h => hu (heq.trans h)
      rw [hagree p.1 hpt]
    | false => exact ih

/-- Claim C6: in an all-tasks run where one task's pipeline fails, every task
keeps an entry in the response map, the failing task's entry is the labeled
error marker, and every other task's entry is unchanged under any oracle that
agrees away from the failing task. -/
theorem claim6_fault_isolation (tasks : List (String × String)) (caseText : String)
    (oracle oracle2 : String → Oracle) (t instr m : String)
    (hmem : (t, instr) ∈ tasks)
    (hfail : process_task instr caseText (oracle t) = Except.error m)
    (hagree : ∀ u, u ≠ t → oracle2 u = oracle u) :
    (run_all_responses tasks caseText oracle).map Prod.fst = tasks.map Prod.fst ∧
    (t, "Error: " ++ m) ∈ run_all_responses tasks caseText oracle ∧
    (∀ u, u ≠ t →
      List.lookup u (run_all_responses tasks caseText oracle)
        = List.lookup u (run_all_responses tasks caseText oracle2)) := by
  refine ⟨?_, ?_, fun u hu => run_all_responses_local tasks caseText oracle oracle2 t hagree u hu⟩
  · unfold run_all_responses
    rw [List.map_map]
    rfl
  · refine List.mem_map.mpr ⟨(t, instr), hmem, ?_⟩
    show (t, taskOutcome instr caseText (oracle t)) = (t, "Error: " ++ m)
    unfold taskOutcome
    rw [hfail]

/-- Claim C6, witness: the three fixed tasks with the "Treatment" provider
failing on quota. -/
theorem claim6_witness :
    ("Treatment", "Error: " ++ "quota") ∈ run_all_responses TOPICS "case6" claim6Oracle :=
  (claim6_fault_isolation TOPICS "case6" claim6Oracle claim6Oracle2 "Treatment"
    "Summarise first-line therapy including dose, route, frequency, and duration."
    "quota" (by decide) rfl
    (fun u hu => by simp [claim6Oracle, claim6Oracle2, hu])).2.1

/-- Claim C4: for every raw answer text the guideline tag is the first of
"2025","2024","2023","2022" occurring as a substring, else "NONE" — the
truthiness/sentinel guard in the code never changes the outcome, since
neither the empty string nor the sentinel contains any of the years; the
spec test inputs behave accordingly. -/
theorem claim4_guideline_tag :
    (∀ answer : String, guidelineTag answer = firstYear answer) ∧
    guidelineTag "...per ACOG 2023 guidance..." = "2023" ∧
    guidelineTag "cites 2022 and also 2024 guidance" = "2024" ∧
    guidelineTag "no year from the set" = "NONE" := by
  refine ⟨?_, by decide, by decide, by decide⟩
  intro answer
  by_cases h1 : answer = ""
  · subst h1; decide
  · by_cases h2 : answer = SENTINEL
    · subst h2; decide
    · unfold guidelineTag
      rw [if_pos ⟨h1, h2⟩]

/-- Claim C7: the formatter output is exactly the stripped non-blank lines,
each bullet-prefixed unless already so (no double prefix), joined with blank
lines; every non-blank output line starts with the bullet marker; and the
spec example yields exactly three bullet lines. -/
theorem claim7_bullet_formatting :
    (∀ a : List Char, formatAnswerL a = bulletSpecFormat a) ∧
    (∀ a : List Char,
      (splitNL (formatAnswerL a)).all
        (fun l => l.isEmpty || l.head? == some '•') = true) ∧
    formatAnswer "Line A\nLine B\n\n• Line C" = "• Line A\n\n• Line B\n\n• Line C" ∧
    ((splitNL (formatAnswerL ("Line A\nLine B\n\n• Line C" : String).data)).filter
      (fun l => !l.isEmpty)).length = 3 := by
  refine ⟨formatAnswerL_eq, ?_, by decide, by decide⟩
  intro a
  rw [List.all_eq_true]
  intro l hl
  rw [formatAnswerL_eq] at hl
  rcases joinSep_lines (bulletChunks a)
      (fun c hc => mem_bulletChunks_head hc)
      (fun c hc => mem_bulletChunks_no_nl hc) l hl with h | h
  · simp [h]
  · simp [h]

/-- Claim C8: appending entries one by one stores them in insertion order,
the display listing returns them most-recent-first, and clearing leaves an
empty listing. -/
theorem claim8_history_order :
    (∀ (entries h : List HistoryEntry),
      listEntries (entries.foldl appendEntry h) = entries.reverse ++ listEntries h) ∧
    (∀ entries : List HistoryEntry,
      listEntries (entries.foldl appendEntry clearHistory) = entries.reverse) ∧
    listEntries clearHistory = [] := by
  have hfold : ∀ (entries h : List HistoryEntry),
      entries.foldl appendEntry h = h ++ entries := by
    intro entries
    induction entries with
    | nil => intro h; simp
    | cons e rest ih =>
      intro h
      rw [List.foldl_cons]
      show List.foldl appendEntry (h ++ [e]) rest = h ++ e :: rest
      rw [ih]
      simp
  refine ⟨?_, ?_, rfl⟩
  · intro entries h
    rw [hfold]
    unfold listEntries
    rw [List.reverse_append]
  · intro entries
    rw [hfold]
    unfold listEntries clearHistory
    simp

/-- Claim C9: the sentinel is displayed with guideline tag "NONE" and the
explicit no-response state, which is distinct from every bulleted content
block. -/
theorem claim9_sentinel_display :
    display_result SENTINEL = ("NONE", Rendered.noResponse) ∧
    (∀ s : String, (Rendered.noResponse == Rendered.bullets s) = false) := by
  refine ⟨by decide, fun s => ?_⟩
  rfl

/-- Claim C10: content genuinely returned by the provider that equals the
sentinel string flows through `process_task` unchanged (in one call, no
retry), and at the display boundary it is tagged "NONE" and rendered as the
no-response state — exactly like the marker produced by a doubly-empty run,
so the two are indistinguishable there. -/
theorem claim10_sentinel_collision :
    process_task "i10" "c10" (fun _ _ => CallResult.ok (some SENTINEL))
      = Except.ok (SENTINEL, [(procMessages "i10" "c10", MAX_TOKENS)]) ∧
    process_task "i10" "c10" (fun _ _ => CallResult.ok none)
      = Except.ok (SENTINEL,
          [(procMessages "i10" "c10", MAX_TOKENS),
           (procMessages "i10" "c10", MAX_TOKENS_RETRY)]) ∧
    display_result SENTINEL = ("NONE", Rendered.noResponse) := by
  refine ⟨rfl, rfl, by decide⟩

end RidgeDoctor
